import Mathlib

/-!
Verification of the pkgcore operation core against its specification.

The development shallowly embeds the relevant Python sources:
  * `pkgcore/interfaces/observer.py` (the observer hook `wrap_build_method`),
  * `pkgcore/operations/format.py` (`_raw_fetch`, `build_base`, `empty_build_op`),
  * `pkgcore/operations/repo.py` (`fake_lock`, `base`, `install`, `uninstall`,
    `replace`, the `operations` registry),
  * `pkgcore/util/formatters.py` (`StreamClosed`, `PlainTextFormatter.write`).

Python strings are Lean `String`s; string operations needed for prefix
dispatch are defined over `String.data` so that they compute by `decide`.
Python exceptions become explicit `Except` results.  The stage-graph engine
(`snakeoil.dependant_methods.ForcedDepends`) is not part of this repository's
sources, so it is modelled from the specification (section 4.1).
-/

/-- Python exception classes relevant to the embedded code, with their
single-inheritance hierarchy (`StreamClosed(KeyboardInterrupt)` from
formatters.py, the builtin classes as in CPython 2). -/
inductive ExcClass where
  | baseException
  | exception
  | ioError
  | keyboardInterrupt
  | streamClosed
deriving DecidableEq, Repr

/-- The chain of classes from a class up to the root of the hierarchy,
the class itself included.  `StreamClosed` is declared in formatters.py as
a subclass of `KeyboardInterrupt`. -/
def superChain : ExcClass → List ExcClass
  | .baseException => [.baseException]
  | .exception => [.exception, .baseException]
  | .ioError => [.ioError, .exception, .baseException]
  | .keyboardInterrupt => [.keyboardInterrupt, .baseException]
  | .streamClosed => [.streamClosed, .keyboardInterrupt, .baseException]

/-- Class `c` is a (reflexive) subclass of `d`. -/
def isSubclass (c d : ExcClass) : Bool := d ∈ superChain c

/-- Python exception values raised by the embedded code. -/
inductive PyErr where
  | attributeError (name : String)
  | typeError
  | notImplementedError (what : String)
  | raised (id : Nat)
deriving DecidableEq, Repr

/- ----------------------------------------------------------------- -/
/- observer.py: wrap_build_method (the observer hook)                 -/
/- ----------------------------------------------------------------- -/

/-- Events observable during one wrapped stage invocation: the two observer
notifications and the invocation of the underlying stage method itself. -/
inductive TraceEvent where
  | phase_start (phase : String)
  | body_invoked
  | phase_end (phase : String) (status : Bool)
deriving DecidableEq, Repr

/-- Outcome of invoking a stage method body: a normal boolean return or a
raised exception. -/
inductive MethodResult where
  | ok (b : Bool)
  | exn (e : PyErr)
deriving DecidableEq, Repr

/-- Embeds `wrap_build_method(phase, method, self, *args)` from
`pkgcore/interfaces/observer.py`.  `hasObserver` is `self.observer is not None`;
`method` is the outcome the stage body produces when invoked.  If the observer
is absent the body is invoked directly.  Otherwise `phase_start` fires, then
the body runs with `ret` initialised to `False`; the `finally` block fires
`phase_end(phase, ret)` (so `ret` is still `False` when the body raised), and
a raised exception propagates after the notification. -/
def wrap_build_method (hasObserver : Bool) (phase : String) (method : MethodResult) :
    Except PyErr Bool × List TraceEvent :=
  if hasObserver = false then
    (match method with
     | .ok b => .ok b
     | .exn e => .error e, [.body_invoked])
  else
    match method with
    | .ok b => (.ok b, [.phase_start phase, .body_invoked, .phase_end phase b])
    | .exn e => (.error e, [.phase_start phase, .body_invoked, .phase_end phase false])

/-- The status `phase_end` should report for a body outcome: the returned
value, or `false` when the body raised. -/
def methodStatus : MethodResult → Bool
  | .ok b => b
  | .exn _ => false

/-- The result the caller of the wrapped method should see: the returned
value, or the propagated exception. -/
def methodOutcome : MethodResult → Except PyErr Bool
  | .ok b => .ok b
  | .exn e => .error e

/-- C1: with a non-null observer, every wrapped stage invocation produces
exactly one `phase_start phase` before the body runs and exactly one
`phase_end phase status` after it, where `status` is the body's return value
or `false` if it raised; a raised exception reaches the caller only after
`phase_end` appears in the trace; with a null observer the body is invoked
directly with no notifications. -/
theorem c1_observer_hook_pairing (phase : String) (m : MethodResult) :
    wrap_build_method true phase m =
      (methodOutcome m,
        [.phase_start phase, .body_invoked, .phase_end phase (methodStatus m)]) ∧
    wrap_build_method false phase m = (methodOutcome m, [.body_invoked]) := by
  cases m <;> simp [wrap_build_method, methodOutcome, methodStatus]

/- ----------------------------------------------------------------- -/
/- formatters.py: StreamClosed and PlainTextFormatter.write           -/
/- ----------------------------------------------------------------- -/

/-- Linux `errno.EPIPE`. -/
def EPIPE : Nat := 32

/-- Outcome of the body of `PlainTextFormatter.write` (the sequence of
`self.stream.write` calls): either all writes succeed, or one raises an
`IOError` carrying an errno. -/
inductive WriteOutcome where
  | ok
  | ioError (errno : Nat)
deriving DecidableEq, Repr

/-- A raised Python exception object: its class and, for I/O errors, the
errno it carries (for `StreamClosed(e)` the errno of the wrapped cause). -/
structure PyExc where
  cls : ExcClass
  errno : Option Nat
deriving DecidableEq, Repr

/-- Embeds the `try`/`except IOError` wrapper of `PlainTextFormatter.write`
from `pkgcore/util/formatters.py`: an `IOError` with errno `EPIPE` is
re-raised as `StreamClosed(e)`; any other `IOError` is re-raised unchanged. -/
def PlainTextFormatter_write (body : WriteOutcome) : Except PyExc Unit :=
  match body with
  | .ok => .ok ()
  | .ioError e =>
    if e = EPIPE then .error ⟨.streamClosed, some e⟩
    else .error ⟨.ioError, some e⟩

/-- C8: a broken-pipe write failure (errno EPIPE) is raised as the distinct
`StreamClosed` condition, which is a subclass of `KeyboardInterrupt` (the
user-interrupt class); an `IOError` with any other errno propagates unchanged
as the original error class. -/
theorem c8_stream_closed_epipe (e : Nat) :
    PlainTextFormatter_write (.ioError e) =
      (if e = EPIPE then Except.error ⟨.streamClosed, some e⟩
       else Except.error ⟨.ioError, some e⟩) ∧
    isSubclass .streamClosed .keyboardInterrupt = true ∧
    ExcClass.streamClosed ≠ ExcClass.ioError ∧
    PlainTextFormatter_write .ok = .ok () := by
  refine ⟨rfl, by decide, by decide, rfl⟩

/- ----------------------------------------------------------------- -/
/- format.py: build_base.__init__ and empty_build_op.__init__         -/
/- ----------------------------------------------------------------- -/

/-- An opaque Python value (a package, a domain, an observer, or `None`). -/
inductive PyVal where
  | obj (id : Nat)
  | pynone
deriving DecidableEq, Repr

/-- State produced by a successful `build_base.__init__(self, domain,
observer)`. -/
structure BuildBaseState where
  domain : PyVal
  observer : PyVal
deriving DecidableEq, Repr

/-- Embeds `build_base.__init__` from `pkgcore/operations/format.py` as a
positional call: the method declares exactly the two required parameters
`domain` and `observer` (besides `self`), so a call supplying any other
number of positional arguments raises `TypeError` at call time. -/
def build_base_init (args : List PyVal) : Except PyErr BuildBaseState :=
  match args with
  | [domain, observer] => .ok ⟨domain, observer⟩
  | _ => .error .typeError

/-- State of a fully constructed `empty_build_op`. -/
structure EmptyBuildOpState where
  base : BuildBaseState
  pkg : PyVal

/-- Embeds `empty_build_op.__init__(self, pkg, observer=None, clean=False)`
from `pkgcore/operations/format.py`: its body calls
`build_base.__init__(self, observer)`, supplying a single positional
argument where `build_base.__init__` requires two. -/
def empty_build_op_init (pkg : PyVal) (observer : PyVal) (clean : Bool) :
    Except PyErr EmptyBuildOpState :=
  match build_base_init [observer] with
  | .error e => .error e
  | .ok base => .ok ⟨base, pkg⟩

/-- C9: every attempt to construct an `empty_build_op` raises `TypeError`:
the constructor passes the observer in the position of `build_base`'s
required `domain` parameter and omits the `observer` argument entirely. -/
theorem c9_empty_build_op_typeerror (pkg observer : PyVal) (clean : Bool) :
    empty_build_op_init pkg observer clean = .error .typeError := rfl

/- ----------------------------------------------------------------- -/
/- format.py: _raw_fetch                                              -/
/- ----------------------------------------------------------------- -/

/-- A fetchable descriptor: a target filename and its (possibly empty)
list of source URIs.  `uri` nonempty models Python truthiness of `x.uri`. -/
structure Fetchable where
  filename : String
  uri : List String
deriving DecidableEq, Repr

/-- Events observable during one `_raw_fetch` run: an invocation of the
fetch capability on a fetchable, the recording of an obtained path in the
fetch record, and the no-fetch hook. -/
inductive FetchEvent where
  | fetcher_call (x : Fetchable)
  | recorded (fp : String) (x : Fetchable)
  | nofetch
deriving DecidableEq, Repr

/-- Result of a `_raw_fetch` run: the boolean outcome, the final fetch
record (`self.files`), the final set of obtained filenames
(`gotten_fetchables`), and the event trace. -/
structure FetchRes where
  ok : Bool
  files : List (String × Fetchable)
  gotten : List String
  evs : List FetchEvent
deriving DecidableEq, Repr

/-- Python dict assignment `files[fp] = x`: overwrite in place if the key
is present, append otherwise. -/
def dictInsert (files : List (String × Fetchable)) (fp : String) (x : Fetchable) :
    List (String × Fetchable) :=
  if files.any (fun p => p.1 = fp) then
    files.map (fun p => if p.1 = fp then (fp, x) else p)
  else files ++ [(fp, x)]

/-- Embeds the `for x in self.fetchables` loop of `_raw_fetch` from
`pkgcore/operations/format.py`: skip a fetchable whose filename is already
obtained; otherwise invoke the fetch capability; on `None` return `False`
directly when the fetchable has a uri, and after invoking the no-fetch hook
when it has none; on a path, record it under the fetchable and continue. -/
def raw_fetch_go (fetcher : Fetchable → Option String) :
    List Fetchable → List String → List (String × Fetchable) → FetchRes
  | [], gotten, files => ⟨true, files, gotten, []⟩
  | x :: rest, gotten, files =>
    if x.filename ∈ gotten then raw_fetch_go fetcher rest gotten files
    else
      match fetcher x with
      | none =>
        if !x.uri.isEmpty then ⟨false, files, gotten, [.fetcher_call x]⟩
        else ⟨false, files, gotten, [.fetcher_call x, .nofetch]⟩
      | some fp =>
        let r := raw_fetch_go fetcher rest (gotten ++ [x.filename]) (dictInsert files fp x)
        ⟨r.ok, r.files, r.gotten, .fetcher_call x :: .recorded fp x :: r.evs⟩

/-- Embeds `_raw_fetch(self)` from `pkgcore/operations/format.py`:
initialise `self.files` to the empty record when absent, seed
`gotten_fetchables` with the filenames of the fetchables already in the
record, then run the loop over `self.fetchables`. -/
def _raw_fetch (fetcher : Fetchable → Option String) (fetchables : List Fetchable)
    (files0 : Option (List (String × Fetchable))) : FetchRes :=
  let files := files0.getD []
  raw_fetch_go fetcher fetchables (files.map (fun p => p.2.filename)) files

theorem raw_fetch_go_skips_gotten (fetcher : Fetchable → Option String)
    (l : List Fetchable) :
    ∀ gotten files (x : Fetchable), x.filename ∈ gotten →
      FetchEvent.fetcher_call x ∉ (raw_fetch_go fetcher l gotten files).evs := by
  induction l with
  | nil => intro gotten files x _hx; simp [raw_fetch_go]
  | cons y rest ih =>
    intro gotten files x hx
    by_cases hy : y.filename ∈ gotten
    · simpa [raw_fetch_go, hy] using ih gotten files x hx
    · have hxy : x ≠ y := by
        intro h
        exact hy (h ▸ hx)
      cases hf : fetcher y with
      | none =>
        cases hu : y.uri with
        | nil => simp [raw_fetch_go, hy, hf, hu, hxy]
        | cons u us => simp [raw_fetch_go, hy, hf, hu, hxy]
      | some fp =>
        have hrec := ih (gotten ++ [y.filename]) (dictInsert files fp y) x
          (by simp [hx])
        simpa [raw_fetch_go, hy, hf, hxy] using hrec

theorem raw_fetch_go_uri_failure (fetcher : Fetchable → Option String)
    (l : List Fetchable) :
    ∀ gotten files (x : Fetchable),
      FetchEvent.fetcher_call x ∈ (raw_fetch_go fetcher l gotten files).evs →
      fetcher x = none → x.uri ≠ [] →
      (raw_fetch_go fetcher l gotten files).ok = false ∧
        FetchEvent.nofetch ∉ (raw_fetch_go fetcher l gotten files).evs := by
  induction l with
  | nil => intro gotten files x hmem _ _; simp [raw_fetch_go] at hmem
  | cons y rest ih =>
    intro gotten files x hmem hfx hux
    by_cases hy : y.filename ∈ gotten
    · simp only [raw_fetch_go, if_pos hy] at hmem ⊢
      exact ih gotten files x hmem hfx hux
    · cases hf : fetcher y with
      | none =>
        cases hu : y.uri with
        | nil =>
          simp [raw_fetch_go, hy, hf, hu] at hmem
          subst hmem
          exact absurd hu hux
        | cons u us =>
          simp [raw_fetch_go, hy, hf, hu] at hmem ⊢
      | some fp =>
        simp [raw_fetch_go, hy, hf] at hmem ⊢
        rcases hmem with h | h
        · subst h
          simp [hf] at hfx
        · have := ih (gotten ++ [y.filename]) (dictInsert files fp y) x h hfx hux
          exact ⟨this.1, fun hc => this.2 hc⟩

theorem raw_fetch_go_nofetch_source (fetcher : Fetchable → Option String)
    (l : List Fetchable) :
    ∀ gotten files,
      FetchEvent.nofetch ∈ (raw_fetch_go fetcher l gotten files).evs →
      (raw_fetch_go fetcher l gotten files).ok = false ∧
        ∃ x : Fetchable, FetchEvent.fetcher_call x ∈ (raw_fetch_go fetcher l gotten files).evs ∧
          fetcher x = none ∧ x.uri = [] := by
  induction l with
  | nil => intro gotten files hmem; simp [raw_fetch_go] at hmem
  | cons y rest ih =>
    intro gotten files hmem
    by_cases hy : y.filename ∈ gotten
    · simp only [raw_fetch_go, if_pos hy] at hmem ⊢
      exact ih gotten files hmem
    · cases hf : fetcher y with
      | none =>
        cases hu : y.uri with
        | nil =>
          refine ⟨by simp [raw_fetch_go, hy, hf, hu], y, ?_, hf, hu⟩
          simp [raw_fetch_go, hy, hf, hu]
        | cons u us =>
          simp [raw_fetch_go, hy, hf, hu] at hmem
      | some fp =>
        simp only [raw_fetch_go, hy, hf] at hmem ⊢
        simp at hmem ⊢
        obtain ⟨hok, z, hz, hfz, huz⟩ := ih (gotten ++ [y.filename]) (dictInsert files fp y) hmem
        exact ⟨hok, Or.inr ⟨z, hz, hfz, huz⟩⟩

theorem raw_fetch_go_success_recorded (fetcher : Fetchable → Option String)
    (l : List Fetchable) :
    ∀ gotten files (x : Fetchable) (fp : String),
      FetchEvent.fetcher_call x ∈ (raw_fetch_go fetcher l gotten files).evs →
      fetcher x = some fp →
      FetchEvent.recorded fp x ∈ (raw_fetch_go fetcher l gotten files).evs := by
  induction l with
  | nil => intro gotten files x fp hmem _; simp [raw_fetch_go] at hmem
  | cons y rest ih =>
    intro gotten files x fp hmem hfx
    by_cases hy : y.filename ∈ gotten
    · simp only [raw_fetch_go, if_pos hy] at hmem ⊢
      exact ih gotten files x fp hmem hfx
    · cases hf : fetcher y with
      | none =>
        cases hu : y.uri with
        | nil =>
          simp [raw_fetch_go, hy, hf, hu] at hmem
          subst hmem
          simp [hf] at hfx
        | cons u us =>
          simp [raw_fetch_go, hy, hf, hu] at hmem
          subst hmem
          simp [hf] at hfx
      | some fp' =>
        simp [raw_fetch_go, hy, hf] at hmem ⊢
        rcases hmem with h | h
        · subst h
          rw [hf] at hfx
          cases hfx
          exact Or.inl ⟨rfl, rfl⟩
        · exact Or.inr (ih _ _ x fp h hfx)

theorem raw_fetch_go_gotten_mono (fetcher : Fetchable → Option String)
    (l : List Fetchable) :
    ∀ gotten files (g : String), g ∈ gotten →
      g ∈ (raw_fetch_go fetcher l gotten files).gotten := by
  induction l with
  | nil => intro gotten files g hg; simpa [raw_fetch_go] using hg
  | cons y rest ih =>
    intro gotten files g hg
    by_cases hy : y.filename ∈ gotten
    · simp only [raw_fetch_go, if_pos hy]
      exact ih gotten files g hg
    · cases hf : fetcher y with
      | none =>
        cases hu : y.uri with
        | nil => simpa [raw_fetch_go, hy, hf, hu] using hg
        | cons u us => simpa [raw_fetch_go, hy, hf, hu] using hg
      | some fp =>
        simp [raw_fetch_go, hy, hf]
        exact ih (gotten ++ [y.filename]) (dictInsert files fp y) g (by simp [hg])

theorem raw_fetch_go_true_all_gotten (fetcher : Fetchable → Option String)
    (l : List Fetchable) :
    ∀ gotten files,
      (raw_fetch_go fetcher l gotten files).ok = true →
      ∀ x ∈ l, x.filename ∈ (raw_fetch_go fetcher l gotten files).gotten := by
  induction l with
  | nil => intro gotten files _ x hx; simp at hx
  | cons y rest ih =>
    intro gotten files hok x hx
    by_cases hy : y.filename ∈ gotten
    · simp only [raw_fetch_go, if_pos hy] at hok ⊢
      rcases hx with _ | hx
      · exact raw_fetch_go_gotten_mono fetcher rest gotten files _ hy
      · exact ih gotten files hok x (by assumption)
    · cases hf : fetcher y with
      | none =>
        cases hu : y.uri with
        | nil => simp [raw_fetch_go, hy, hf, hu] at hok
        | cons u us => simp [raw_fetch_go, hy, hf, hu] at hok
      | some fp =>
        simp [raw_fetch_go, hy, hf] at hok ⊢
        rcases hx with _ | hx
        · exact raw_fetch_go_gotten_mono fetcher rest (gotten ++ [y.filename])
            (dictInsert files fp y) _ (by simp)
        · exact ih (gotten ++ [y.filename]) (dictInsert files fp y) hok x (by assumption)

theorem raw_fetch_go_nouri_failure (fetcher : Fetchable → Option String)
    (l : List Fetchable) :
    ∀ gotten files (x : Fetchable),
      FetchEvent.fetcher_call x ∈ (raw_fetch_go fetcher l gotten files).evs →
      fetcher x = none → x.uri = [] →
      (raw_fetch_go fetcher l gotten files).ok = false ∧
        FetchEvent.nofetch ∈ (raw_fetch_go fetcher l gotten files).evs := by
  induction l with
  | nil => intro gotten files x hmem _ _; simp [raw_fetch_go] at hmem
  | cons y rest ih =>
    intro gotten files x hmem hfx hux
    by_cases hy : y.filename ∈ gotten
    · simp only [raw_fetch_go, if_pos hy] at hmem ⊢
      exact ih gotten files x hmem hfx hux
    · cases hf : fetcher y with
      | none =>
        cases hu : y.uri with
        | nil =>
          simp [raw_fetch_go, hy, hf, hu]
        | cons u us =>
          simp [raw_fetch_go, hy, hf, hu] at hmem
          subst hmem
          rw [hux] at hu
          cases hu
      | some fp =>
        simp [raw_fetch_go, hy, hf] at hmem ⊢
        rcases hmem with h | h
        · subst h
          simp [hf] at hfx
        · exact ih (gotten ++ [y.filename]) (dictInsert files fp y) x h hfx hux

theorem raw_fetch_go_false_has_miss (fetcher : Fetchable → Option String)
    (l : List Fetchable) :
    ∀ gotten files,
      (raw_fetch_go fetcher l gotten files).ok = false →
      ∃ x : Fetchable,
        FetchEvent.fetcher_call x ∈ (raw_fetch_go fetcher l gotten files).evs ∧
          fetcher x = none := by
  induction l with
  | nil => intro gotten files hok; simp [raw_fetch_go] at hok
  | cons y rest ih =>
    intro gotten files hok
    by_cases hy : y.filename ∈ gotten
    · simp only [raw_fetch_go, if_pos hy] at hok ⊢
      exact ih gotten files hok
    · cases hf : fetcher y with
      | none =>
        cases hu : y.uri with
        | nil =>
          exact ⟨y, by simp [raw_fetch_go, hy, hf, hu], hf⟩
        | cons u us =>
          exact ⟨y, by simp [raw_fetch_go, hy, hf, hu], hf⟩
      | some fp =>
        simp only [raw_fetch_go, hy, hf] at hok ⊢
        simp at hok ⊢
        obtain ⟨z, hz, hfz⟩ := ih (gotten ++ [y.filename]) (dictInsert files fp y) hok
        exact Or.inr ⟨z, hz, hfz⟩

/-- C2: over the instance's fetchables, a fetchable whose filename is already
in the fetch record is skipped without invoking the fetch capability; a
capability miss on a fetchable with a uri fails the stage without invoking
the no-fetch hook; a capability miss on a fetchable without uri invokes the
no-fetch hook and fails the stage (and the hook fires in no other case);
each successful capability call records the obtained path under its
fetchable; the stage returns true exactly when no capability miss occurred,
and then every fetchable's filename has been obtained. -/
theorem c2_fetch_stage_semantics (fetcher : Fetchable → Option String)
    (fetchables : List Fetchable) (files0 : Option (List (String × Fetchable))) :
    (∀ x : Fetchable,
        x.filename ∈ (files0.getD []).map (fun p => p.2.filename) →
        FetchEvent.fetcher_call x ∉ (_raw_fetch fetcher fetchables files0).evs) ∧
    (∀ x : Fetchable,
        FetchEvent.fetcher_call x ∈ (_raw_fetch fetcher fetchables files0).evs →
        fetcher x = none → x.uri ≠ [] →
        (_raw_fetch fetcher fetchables files0).ok = false ∧
          FetchEvent.nofetch ∉ (_raw_fetch fetcher fetchables files0).evs) ∧
    (FetchEvent.nofetch ∈ (_raw_fetch fetcher fetchables files0).evs →
        (_raw_fetch fetcher fetchables files0).ok = false ∧
        ∃ x : Fetchable,
          FetchEvent.fetcher_call x ∈ (_raw_fetch fetcher fetchables files0).evs ∧
            fetcher x = none ∧ x.uri = []) ∧
    (∀ (x : Fetchable) (fp : String),
        FetchEvent.fetcher_call x ∈ (_raw_fetch fetcher fetchables files0).evs →
        fetcher x = some fp →
        FetchEvent.recorded fp x ∈ (_raw_fetch fetcher fetchables files0).evs) ∧
    ((_raw_fetch fetcher fetchables files0).ok = true →
        ∀ x ∈ fetchables, x.filename ∈ (_raw_fetch fetcher fetchables files0).gotten) ∧
    (∀ x : Fetchable,
        FetchEvent.fetcher_call x ∈ (_raw_fetch fetcher fetchables files0).evs →
        fetcher x = none → x.uri = [] →
        (_raw_fetch fetcher fetchables files0).ok = false ∧
          FetchEvent.nofetch ∈ (_raw_fetch fetcher fetchables files0).evs) ∧
    ((_raw_fetch fetcher fetchables files0).ok = false →
        ∃ x : Fetchable,
          FetchEvent.fetcher_call x ∈ (_raw_fetch fetcher fetchables files0).evs ∧
            fetcher x = none) := by
  refine ⟨?_, ?_, ?_, ?_, ?_, ?_, ?_⟩
  · intro x hx
    exact raw_fetch_go_skips_gotten fetcher fetchables _ _ x hx
  · intro x hmem hfx hux
    exact raw_fetch_go_uri_failure fetcher fetchables _ _ x hmem hfx hux
  · intro hmem
    exact raw_fetch_go_nofetch_source fetcher fetchables _ _ hmem
  · intro x fp hmem hfx
    exact raw_fetch_go_success_recorded fetcher fetchables _ _ x fp hmem hfx
  · intro hok x hx
    exact raw_fetch_go_true_all_gotten fetcher fetchables _ _ hok x hx
  · intro x hmem hfx hux
    exact raw_fetch_go_nouri_failure fetcher fetchables _ _ x hmem hfx hux
  · intro hok
    exact raw_fetch_go_false_has_miss fetcher fetchables _ _ hok

/-- A sample fetch capability used to witness the fetch theorem: it knows
a path for filename "a" only. -/
def sampleFetcher (x : Fetchable) : Option String :=
  if x.filename = "a" then some "/distfiles/a" else none

/-- Fetchable `A` with a uri. -/
def fetchA : Fetchable := ⟨"a", ["http://host/a"]⟩

/-- Fetchable `B` with a uri, whose filename is already in the record. -/
def fetchB : Fetchable := ⟨"b", ["http://host/b"]⟩

/-- Witness for C2 at a concrete input: with `B` already recorded, the run
never invokes the capability on `B`, does invoke it on `A`, and succeeds. -/
theorem c2_fetch_stage_semantics_witness :
    FetchEvent.fetcher_call fetchB ∉
      (_raw_fetch sampleFetcher [fetchA, fetchB] (some [("/distfiles/b", fetchB)])).evs ∧
    FetchEvent.recorded "/distfiles/a" fetchA ∈
      (_raw_fetch sampleFetcher [fetchA, fetchB] (some [("/distfiles/b", fetchB)])).evs := by
  constructor
  · exact (c2_fetch_stage_semantics sampleFetcher [fetchA, fetchB]
      (some [("/distfiles/b", fetchB)])).1 fetchB (by decide)
  · exact (c2_fetch_stage_semantics sampleFetcher [fetchA, fetchB]
      (some [("/distfiles/b", fetchB)])).2.2.2.1 fetchA "/distfiles/a" (by decide) (by decide)

/- ----------------------------------------------------------------- -/
/- The stage-graph engine (spec section 4.1)                          -/
/- ----------------------------------------------------------------- -/

/-- Accumulated execution context of one operation instance: the backend
state, the completed-stages set, and the trace of executed stages, each
paired with the state it saw when its body started. -/
structure EngineAcc (σ : Type) where
  st : σ
  done : List String
  tr : List (String × σ)
deriving DecidableEq, Repr

/-- Runs a list of prerequisite stages left to right through `step`,
aborting on the first falsy outcome. -/
def runPreAux {σ : Type} (step : String → EngineAcc σ → Option (Bool × EngineAcc σ)) :
    List String → EngineAcc σ → Option (Bool × EngineAcc σ)
  | [], acc => some (true, acc)
  | s :: rest, acc =>
    match step s acc with
    | none => none
    | some (false, acc2) => some (false, acc2)
    | some (true, acc2) => runPreAux step rest acc2

/-- Modelled from the spec: the stage-graph engine
(`snakeoil.dependant_methods.ForcedDepends`, not part of this repository's
sources).  Spec section 4.1: to run stage `s`, skip it if already completed;
otherwise recursively run its declared prerequisites in left-to-right order,
aborting on the first falsy result; then run `s` itself, marking it completed
exactly when its body returns a truthy result.  `fuel` bounds the recursion
depth (`none` = fuel exhausted, which never occurs on the acyclic graphs
used below). -/
def runStage {σ : Type} (deps : String → List String) (impl : String → σ → Bool × σ) :
    Nat → String → EngineAcc σ → Option (Bool × EngineAcc σ)
  | 0, _, _ => none
  | fuel+1, s, acc =>
    if s ∈ acc.done then some (true, acc)
    else
      match runPreAux (runStage deps impl fuel) (deps s) acc with
      | none => none
      | some (false, acc2) => some (false, acc2)
      | some (true, acc2) =>
        let r := impl s acc2.st
        if r.1 then some (true, ⟨r.2, s :: acc2.done, acc2.tr ++ [(s, acc2.st)]⟩)
        else some (false, ⟨r.2, acc2.done, acc2.tr ++ [(s, acc2.st)]⟩)

/- ----------------------------------------------------------------- -/
/- repo.py: fake_lock, base, install, uninstall, replace              -/
/- ----------------------------------------------------------------- -/

/-- The lock a repository operation holds: the repository's real lock or the
no-op `fake_lock` standing in for a `None` repository lock. -/
inductive LockKind where
  | real
  | fake
deriving DecidableEq, Repr

/-- State of the repository's write lock (acquisition count). -/
structure LockState where
  writeHeld : Nat
deriving DecidableEq, Repr

/-- `acquire_write_lock`: the real lock increments the held count; the
`fake_lock` method body is `__init__`, a no-op. -/
def acquire_write_lock : LockKind → LockState → LockState
  | .fake, s => s
  | .real, s => ⟨s.writeHeld + 1⟩

/-- `release_write_lock`: the real lock decrements the held count; the
`fake_lock` method body is a no-op. -/
def release_write_lock : LockKind → LockState → LockState
  | .fake, s => s
  | .real, s => ⟨s.writeHeld - 1⟩

/-- A package object: either an original package or the `MutatedPkg`
wrapper produced by `install._update_pkg_contents`. -/
inductive Pkg where
  | raw (id : Nat)
  | mutated (base : Pkg) (contents : Nat)
deriving DecidableEq, Repr

/-- The `lock` attribute of a repository: absent, `None`, or a lock. -/
inductive LockAttr where
  | absent
  | pynone
  | lockObj
deriving DecidableEq, Repr

/-- A syncer exposed by a repository (`_syncer` attribute). -/
structure Syncer where
  disabled : Bool
deriving DecidableEq, Repr

/-- The repository capability consumed by repo.py: its optional `lock`
attribute, its `frozen` flag and its optional `_syncer` attribute. -/
structure PyRepo where
  lockAttr : LockAttr
  frozen : Bool
  syncerAttr : Option Syncer
deriving DecidableEq, Repr

/-- State established by `base.__init__` from `pkgcore/operations/repo.py`. -/
structure RepoBaseState where
  underway : Bool
  lock : LockKind
deriving DecidableEq, Repr

/-- Embeds `base.__init__` from `pkgcore/operations/repo.py`:
`self.underway = False`; `self.lock = getattr(repo, "lock")` inside a
`try`/`except AttributeError: raise` block, so a repository without a `lock`
attribute makes construction fail with the original `AttributeError`; a
`None` lock is then replaced by a `fake_lock()`. -/
def repo_base_init (repo : PyRepo) : Except PyErr RepoBaseState :=
  match repo.lockAttr with
  | .absent => .error (.attributeError "lock")
  | .pynone => .ok ⟨false, .fake⟩
  | .lockObj => .ok ⟨false, .real⟩

/-- Mutable state of a running repository operation. -/
structure RepoOpState where
  lockKind : LockKind
  lockState : LockState
  underway : Bool
  newPkg : Pkg
  oldPkg : Pkg
  notifiedAdds : List Pkg
  notifiedRemoves : List Pkg
deriving DecidableEq, Repr

/-- `base.start`: set `self.underway = True`, then
`self.lock.acquire_write_lock()`, return `True`. -/
def start_state (st : RepoOpState) : RepoOpState :=
  { st with
    underway := true,
    lockState := acquire_write_lock st.lockKind st.lockState }

def start_impl (st : RepoOpState) : Bool × RepoOpState :=
  (true, start_state st)

/-- `base.finish`: `self.lock.release_write_lock()`, clear `self.underway`,
return `True`. -/
def finish_state (st : RepoOpState) : RepoOpState :=
  { st with
    lockState := release_write_lock st.lockKind st.lockState,
    underway := false }

def finish_impl (st : RepoOpState) : Bool × RepoOpState :=
  (true, finish_state st)

/-- `install._notify_repo_add`: `self.repo.notify_add_package(self.new_pkg)`,
return `True`.  The notification records the package object `new_pkg` holds
at that moment. -/
def notify_add_state (st : RepoOpState) : RepoOpState :=
  { st with notifiedAdds := st.notifiedAdds ++ [st.newPkg] }

def notify_repo_add_impl (st : RepoOpState) : Bool × RepoOpState :=
  (true, notify_add_state st)

/-- `uninstall._notify_repo_remove`:
`self.repo.notify_remove_package(self.old_pkg)`, return `True`. -/
def notify_remove_state (st : RepoOpState) : RepoOpState :=
  { st with notifiedRemoves := st.notifiedRemoves ++ [st.oldPkg] }

def notify_repo_remove_impl (st : RepoOpState) : Bool × RepoOpState :=
  (true, notify_remove_state st)

/-- `install._update_pkg_contents`: replace `self.new_pkg` by
`MutatedPkg(self.new_pkg, {"contents": contents})`. -/
def _update_pkg_contents (st : RepoOpState) (contents : Nat) : RepoOpState :=
  { st with newPkg := .mutated st.newPkg contents }

/-- `install.stage_depends` from `pkgcore/operations/repo.py`. -/
def install_stage_depends : String → List String
  | "finish" => ["_notify_repo_add"]
  | "_notify_repo_add" => ["finalize_data"]
  | "finalize_data" => ["add_data"]
  | "add_data" => ["start"]
  | _ => []

/-- `uninstall.stage_depends` from `pkgcore/operations/repo.py`. -/
def uninstall_stage_depends : String → List String
  | "finish" => ["_notify_repo_remove"]
  | "_notify_repo_remove" => ["finalize_data"]
  | "finalize_data" => ["remove_data"]
  | "remove_data" => ["start"]
  | _ => []

/-- `replace.stage_depends` from `pkgcore/operations/repo.py`; the pair for
`finalize_data` is the declared tuple `('add_data', '_notify_repo_remove')`. -/
def replace_stage_depends : String → List String
  | "finish" => ["_notify_repo_add"]
  | "_notify_repo_add" => ["finalize_data"]
  | "finalize_data" => ["add_data", "_notify_repo_remove"]
  | "_notify_repo_remove" => ["remove_data"]
  | "remove_data" => ["start"]
  | "add_data" => ["start"]
  | _ => []

/-- Stage bodies of the `install` operation.  `add_data` and `finalize_data`
are abstract in the base class (`NotImplementedError`) and must be overridden
by a concrete backend; they are taken as parameters. -/
def install_impl (addData finalizeData : RepoOpState → Bool × RepoOpState) :
    String → RepoOpState → Bool × RepoOpState
  | "start", st => start_impl st
  | "add_data", st => addData st
  | "finalize_data", st => finalizeData st
  | "_notify_repo_add", st => notify_repo_add_impl st
  | "finish", st => finish_impl st
  | _, st => (true, st)

/-- Stage bodies of the `uninstall` operation with its abstract
`remove_data`/`finalize_data` taken as parameters. -/
def uninstall_impl (removeData finalizeData : RepoOpState → Bool × RepoOpState) :
    String → RepoOpState → Bool × RepoOpState
  | "start", st => start_impl st
  | "remove_data", st => removeData st
  | "finalize_data", st => finalizeData st
  | "_notify_repo_remove", st => notify_repo_remove_impl st
  | "finish", st => finish_impl st
  | _, st => (true, st)

/-- Stage bodies of the `replace` operation (the union of install's and
uninstall's, as `replace` inherits from both). -/
def replace_impl (addData removeData finalizeData : RepoOpState → Bool × RepoOpState) :
    String → RepoOpState → Bool × RepoOpState
  | "start", st => start_impl st
  | "add_data", st => addData st
  | "remove_data", st => removeData st
  | "finalize_data", st => finalizeData st
  | "_notify_repo_add", st => notify_repo_add_impl st
  | "_notify_repo_remove", st => notify_repo_remove_impl st
  | "finish", st => finish_impl st
  | _, st => (true, st)

/-- Run the `install` operation's `finish` stage (its full chain) from a
fresh instance. -/
def install_run (addData finalizeData : RepoOpState → Bool × RepoOpState)
    (st0 : RepoOpState) : Option (Bool × EngineAcc RepoOpState) :=
  runStage install_stage_depends (install_impl addData finalizeData) 12 "finish" ⟨st0, [], []⟩

/-- Run the `uninstall` operation's `finish` stage from a fresh instance. -/
def uninstall_run (removeData finalizeData : RepoOpState → Bool × RepoOpState)
    (st0 : RepoOpState) : Option (Bool × EngineAcc RepoOpState) :=
  runStage uninstall_stage_depends (uninstall_impl removeData finalizeData) 12 "finish" ⟨st0, [], []⟩

/-- Run the `replace` operation's `finish` stage from a fresh instance. -/
def replace_run (addData removeData finalizeData : RepoOpState → Bool × RepoOpState)
    (st0 : RepoOpState) : Option (Bool × EngineAcc RepoOpState) :=
  runStage replace_stage_depends (replace_impl addData removeData finalizeData) 12 "finish" ⟨st0, [], []⟩

/-- The fields of the operation state that `start`/`finish` manage and that
well-behaved data-stage bodies leave alone: the underway flag and the lock. -/
def lockFields (st : RepoOpState) : Bool × LockKind × LockState :=
  (st.underway, st.lockKind, st.lockState)


theorem install_run_lock_discipline
    (addData finalizeData : RepoOpState → Bool × RepoOpState)
    (hA : ∀ st, lockFields (addData st).2 = lockFields st)
    (hF : ∀ st, lockFields (finalizeData st).2 = lockFields st)
    (st0 : RepoOpState) (hk : st0.lockKind = .real) (hw : st0.lockState = ⟨0⟩) :
    ∃ ok acc, install_run addData finalizeData st0 = some (ok, acc) ∧
      (acc.tr.map Prod.fst = ["start", "add_data"] ∨
       acc.tr.map Prod.fst = ["start", "add_data", "finalize_data"] ∨
       acc.tr.map Prod.fst =
         ["start", "add_data", "finalize_data", "_notify_repo_add", "finish"]) ∧
      (∀ p ∈ acc.tr, p.1 ≠ "start" → p.1 ≠ "finish" →
        p.2.underway = true ∧ p.2.lockState = ⟨1⟩) ∧
      (ok = true →
        acc.st.underway = false ∧ acc.st.lockState = ⟨0⟩ ∧
        acc.tr.map Prod.fst =
          ["start", "add_data", "finalize_data", "_notify_repo_add", "finish"]) := by
  have hs1u : (start_state st0).underway = true := by simp [start_state]
  have hs1k : (start_state st0).lockKind = .real := by simp [start_state, hk]
  have hs1l : (start_state st0).lockState = ⟨1⟩ := by
    simp [start_state, hk, hw, acquire_write_lock]
  rcases hadd : addData (start_state st0) with ⟨ra, st2⟩
  have h2 := hA (start_state st0)
  rw [hadd] at h2
  simp only [lockFields, Prod.mk.injEq] at h2
  obtain ⟨h2u, h2k, h2l⟩ := h2
  cases ra with
  | false =>
    refine ⟨false, ⟨st2, ["start"], [("start", st0), ("add_data", start_state st0)]⟩,
      ?_, ?_, ?_, ?_⟩
    · simp [install_run, runStage, runPreAux, install_stage_depends, install_impl,
        start_impl, hadd]
    · simp
    · intro p hp hp1 hp2
      simp at hp
      rcases hp with hp | hp
      · rw [hp] at hp1; simp at hp1
      · rw [hp]
        exact ⟨hs1u, hs1l⟩
    · intro h; cases h
  | true =>
    rcases hfin : finalizeData st2 with ⟨rf, st3⟩
    have h3 := hF st2
    rw [hfin] at h3
    simp only [lockFields, Prod.mk.injEq] at h3
    obtain ⟨h3u, h3k, h3l⟩ := h3
    cases rf with
    | false =>
      refine ⟨false, ⟨st3, ["add_data", "start"],
        [("start", st0), ("add_data", start_state st0), ("finalize_data", st2)]⟩,
        ?_, ?_, ?_, ?_⟩
      · simp [install_run, runStage, runPreAux, install_stage_depends, install_impl,
          start_impl, hadd, hfin]
      · simp
      · intro p hp hp1 hp2
        simp at hp
        rcases hp with hp | hp | hp
        · rw [hp] at hp1; simp at hp1
        · rw [hp]
          exact ⟨hs1u, hs1l⟩
        · rw [hp]
          exact ⟨by rw [h2u, hs1u], by rw [h2l, hs1l]⟩
      · intro h; cases h
    | true =>
      refine ⟨true, ⟨finish_state (notify_add_state st3),
        ["finish", "_notify_repo_add", "finalize_data", "add_data", "start"],
        [("start", st0), ("add_data", start_state st0), ("finalize_data", st2),
         ("_notify_repo_add", st3), ("finish", notify_add_state st3)]⟩,
        ?_, ?_, ?_, ?_⟩
      · simp [install_run, runStage, runPreAux, install_stage_depends, install_impl,
          start_impl, notify_repo_add_impl, finish_impl, hadd, hfin]
      · simp
      · intro p hp hp1 hp2
        simp at hp
        rcases hp with hp | hp | hp | hp | hp
        · rw [hp] at hp1; simp at hp1
        · rw [hp]
          exact ⟨hs1u, hs1l⟩
        · rw [hp]
          exact ⟨by rw [h2u, hs1u], by rw [h2l, hs1l]⟩
        · rw [hp]
          exact ⟨by rw [h3u, h2u, hs1u], by rw [h3l, h2l, hs1l]⟩
        · rw [hp] at hp2; simp at hp2
      · intro _
        refine ⟨by simp [finish_state], ?_, by simp⟩
        have hklock : (notify_add_state st3).lockKind = .real := by
          simp [notify_add_state]
          rw [h3k, h2k, hs1k]
        have hllock : (notify_add_state st3).lockState = ⟨1⟩ := by
          simp [notify_add_state]
          rw [h3l, h2l, hs1l]
        simp [finish_state, hklock, hllock, release_write_lock]

theorem uninstall_run_lock_discipline
    (removeData finalizeData : RepoOpState → Bool × RepoOpState)
    (hR : ∀ st, lockFields (removeData st).2 = lockFields st)
    (hF : ∀ st, lockFields (finalizeData st).2 = lockFields st)
    (st0 : RepoOpState) (hk : st0.lockKind = .real) (hw : st0.lockState = ⟨0⟩) :
    ∃ ok acc, uninstall_run removeData finalizeData st0 = some (ok, acc) ∧
      (acc.tr.map Prod.fst = ["start", "remove_data"] ∨
       acc.tr.map Prod.fst = ["start", "remove_data", "finalize_data"] ∨
       acc.tr.map Prod.fst =
         ["start", "remove_data", "finalize_data", "_notify_repo_remove", "finish"]) ∧
      (∀ p ∈ acc.tr, p.1 ≠ "start" → p.1 ≠ "finish" →
        p.2.underway = true ∧ p.2.lockState = ⟨1⟩) ∧
      (ok = true →
        acc.st.underway = false ∧ acc.st.lockState = ⟨0⟩ ∧
        acc.tr.map Prod.fst =
          ["start", "remove_data", "finalize_data", "_notify_repo_remove", "finish"]) := by
  have hs1u : (start_state st0).underway = true := by simp [start_state]
  have hs1k : (start_state st0).lockKind = .real := by simp [start_state, hk]
  have hs1l : (start_state st0).lockState = ⟨1⟩ := by
    simp [start_state, hk, hw, acquire_write_lock]
  rcases hrem : removeData (start_state st0) with ⟨ra, st2⟩
  have h2 := hR (start_state st0)
  rw [hrem] at h2
  simp only [lockFields, Prod.mk.injEq] at h2
  obtain ⟨h2u, h2k, h2l⟩ := h2
  cases ra with
  | false =>
    refine ⟨false, ⟨st2, ["start"], [("start", st0), ("remove_data", start_state st0)]⟩,
      ?_, ?_, ?_, ?_⟩
    · simp [uninstall_run, runStage, runPreAux, uninstall_stage_depends, uninstall_impl,
        start_impl, hrem]
    · simp
    · intro p hp hp1 hp2
      simp at hp
      rcases hp with hp | hp
      · rw [hp] at hp1; simp at hp1
      · rw [hp]
        exact ⟨hs1u, hs1l⟩
    · intro h; cases h
  | true =>
    rcases hfin : finalizeData st2 with ⟨rf, st3⟩
    have h3 := hF st2
    rw [hfin] at h3
    simp only [lockFields, Prod.mk.injEq] at h3
    obtain ⟨h3u, h3k, h3l⟩ := h3
    cases rf with
    | false =>
      refine ⟨false, ⟨st3, ["remove_data", "start"],
        [("start", st0), ("remove_data", start_state st0), ("finalize_data", st2)]⟩,
        ?_, ?_, ?_, ?_⟩
      · simp [uninstall_run, runStage, runPreAux, uninstall_stage_depends, uninstall_impl,
          start_impl, hrem, hfin]
      · simp
      · intro p hp hp1 hp2
        simp at hp
        rcases hp with hp | hp | hp
        · rw [hp] at hp1; simp at hp1
        · rw [hp]
          exact ⟨hs1u, hs1l⟩
        · rw [hp]
          exact ⟨by rw [h2u, hs1u], by rw [h2l, hs1l]⟩
      · intro h; cases h
    | true =>
      refine ⟨true, ⟨finish_state (notify_remove_state st3),
        ["finish", "_notify_repo_remove", "finalize_data", "remove_data", "start"],
        [("start", st0), ("remove_data", start_state st0), ("finalize_data", st2),
         ("_notify_repo_remove", st3), ("finish", notify_remove_state st3)]⟩,
        ?_, ?_, ?_, ?_⟩
      · simp [uninstall_run, runStage, runPreAux, uninstall_stage_depends, uninstall_impl,
          start_impl, notify_repo_remove_impl, finish_impl, hrem, hfin]
      · simp
      · intro p hp hp1 hp2
        simp at hp
        rcases hp with hp | hp | hp | hp | hp
        · rw [hp] at hp1; simp at hp1
        · rw [hp]
          exact ⟨hs1u, hs1l⟩
        · rw [hp]
          exact ⟨by rw [h2u, hs1u], by rw [h2l, hs1l]⟩
        · rw [hp]
          exact ⟨by rw [h3u, h2u, hs1u], by rw [h3l, h2l, hs1l]⟩
        · rw [hp] at hp2; simp at hp2
      · intro _
        refine ⟨by simp [finish_state], ?_, by simp⟩
        have hklock : (notify_remove_state st3).lockKind = .real := by
          simp [notify_remove_state]
          rw [h3k, h2k, hs1k]
        have hllock : (notify_remove_state st3).lockState = ⟨1⟩ := by
          simp [notify_remove_state]
          rw [h3l, h2l, hs1l]
        simp [finish_state, hklock, hllock, release_write_lock]

theorem replace_run_lock_discipline
    (addData removeData finalizeData : RepoOpState → Bool × RepoOpState)
    (hA : ∀ st, lockFields (addData st).2 = lockFields st)
    (hR : ∀ st, lockFields (removeData st).2 = lockFields st)
    (hF : ∀ st, lockFields (finalizeData st).2 = lockFields st)
    (st0 : RepoOpState) (hk : st0.lockKind = .real) (hw : st0.lockState = ⟨0⟩) :
    ∃ ok acc, replace_run addData removeData finalizeData st0 = some (ok, acc) ∧
      (acc.tr.map Prod.fst = ["start", "add_data"] ∨
       acc.tr.map Prod.fst = ["start", "add_data", "remove_data"] ∨
       acc.tr.map Prod.fst =
         ["start", "add_data", "remove_data", "_notify_repo_remove", "finalize_data"] ∨
       acc.tr.map Prod.fst =
         ["start", "add_data", "remove_data", "_notify_repo_remove", "finalize_data",
          "_notify_repo_add", "finish"]) ∧
      (∀ p ∈ acc.tr, p.1 ≠ "start" → p.1 ≠ "finish" →
        p.2.underway = true ∧ p.2.lockState = ⟨1⟩) ∧
      (ok = true →
        acc.st.underway = false ∧ acc.st.lockState = ⟨0⟩ ∧
        acc.tr.map Prod.fst =
          ["start", "add_data", "remove_data", "_notify_repo_remove", "finalize_data",
           "_notify_repo_add", "finish"]) := by
  have hs1u : (start_state st0).underway = true := by simp [start_state]
  have hs1k : (start_state st0).lockKind = .real := by simp [start_state, hk]
  have hs1l : (start_state st0).lockState = ⟨1⟩ := by
    simp [start_state, hk, hw, acquire_write_lock]
  rcases hadd : addData (start_state st0) with ⟨ra, st2⟩
  have h2 := hA (start_state st0)
  rw [hadd] at h2
  simp only [lockFields, Prod.mk.injEq] at h2
  obtain ⟨h2u, h2k, h2l⟩ := h2
  cases ra with
  | false =>
    refine ⟨false, ⟨st2, ["start"], [("start", st0), ("add_data", start_state st0)]⟩,
      ?_, ?_, ?_, ?_⟩
    · simp [replace_run, runStage, runPreAux, replace_stage_depends, replace_impl,
        start_impl, hadd]
    · simp
    · intro p hp hp1 hp2
      simp at hp
      rcases hp with hp | hp
      · rw [hp] at hp1; simp at hp1
      · rw [hp]
        exact ⟨hs1u, hs1l⟩
    · intro h; cases h
  | true =>
    rcases hrem : removeData st2 with ⟨rr, st3⟩
    have h3 := hR st2
    rw [hrem] at h3
    simp only [lockFields, Prod.mk.injEq] at h3
    obtain ⟨h3u, h3k, h3l⟩ := h3
    cases rr with
    | false =>
      refine ⟨false, ⟨st3, ["add_data", "start"],
        [("start", st0), ("add_data", start_state st0), ("remove_data", st2)]⟩,
        ?_, ?_, ?_, ?_⟩
      · simp [replace_run, runStage, runPreAux, replace_stage_depends, replace_impl,
          start_impl, hadd, hrem]
      · simp
      · intro p hp hp1 hp2
        simp at hp
        rcases hp with hp | hp | hp
        · rw [hp] at hp1; simp at hp1
        · rw [hp]
          exact ⟨hs1u, hs1l⟩
        · rw [hp]
          exact ⟨by rw [h2u, hs1u], by rw [h2l, hs1l]⟩
      · intro h; cases h
    | true =>
      rcases hfin : finalizeData (notify_remove_state st3) with ⟨rf, st4⟩
      have h4 := hF (notify_remove_state st3)
      rw [hfin] at h4
      simp only [lockFields, Prod.mk.injEq] at h4
      obtain ⟨h4u, h4k, h4l⟩ := h4
      have hnru : (notify_remove_state st3).underway = st3.underway := by
        simp [notify_remove_state]
      have hnrk : (notify_remove_state st3).lockKind = st3.lockKind := by
        simp [notify_remove_state]
      have hnrl : (notify_remove_state st3).lockState = st3.lockState := by
        simp [notify_remove_state]
      cases rf with
      | false =>
        refine ⟨false, ⟨st4, ["_notify_repo_remove", "remove_data", "add_data", "start"],
          [("start", st0), ("add_data", start_state st0), ("remove_data", st2),
           ("_notify_repo_remove", st3), ("finalize_data", notify_remove_state st3)]⟩,
          ?_, ?_, ?_, ?_⟩
        · simp [replace_run, runStage, runPreAux, replace_stage_depends, replace_impl,
            start_impl, notify_repo_remove_impl, hadd, hrem, hfin]
        · simp
        · intro p hp hp1 hp2
          simp at hp
          rcases hp with hp | hp | hp | hp | hp
          · rw [hp] at hp1; simp at hp1
          · rw [hp]
            exact ⟨hs1u, hs1l⟩
          · rw [hp]
            exact ⟨by rw [h2u, hs1u], by rw [h2l, hs1l]⟩
          · rw [hp]
            exact ⟨by rw [h3u, h2u, hs1u], by rw [h3l, h2l, hs1l]⟩
          · rw [hp]
            exact ⟨by rw [hnru, h3u, h2u, hs1u], by rw [hnrl, h3l, h2l, hs1l]⟩
        · intro h; cases h
      | true =>
        refine ⟨true, ⟨finish_state (notify_add_state st4),
          ["finish", "_notify_repo_add", "finalize_data", "_notify_repo_remove",
           "remove_data", "add_data", "start"],
          [("start", st0), ("add_data", start_state st0), ("remove_data", st2),
           ("_notify_repo_remove", st3), ("finalize_data", notify_remove_state st3),
           ("_notify_repo_add", st4), ("finish", notify_add_state st4)]⟩,
          ?_, ?_, ?_, ?_⟩
        · simp [replace_run, runStage, runPreAux, replace_stage_depends, replace_impl,
            start_impl, notify_repo_remove_impl, notify_repo_add_impl, finish_impl,
            hadd, hrem, hfin]
        · simp
        · intro p hp hp1 hp2
          simp at hp
          rcases hp with hp | hp | hp | hp | hp | hp | hp
          · rw [hp] at hp1; simp at hp1
          · rw [hp]
            exact ⟨hs1u, hs1l⟩
          · rw [hp]
            exact ⟨by rw [h2u, hs1u], by rw [h2l, hs1l]⟩
          · rw [hp]
            exact ⟨by rw [h3u, h2u, hs1u], by rw [h3l, h2l, hs1l]⟩
          · rw [hp]
            exact ⟨by rw [hnru, h3u, h2u, hs1u], by rw [hnrl, h3l, h2l, hs1l]⟩
          · rw [hp]
            exact ⟨by rw [h4u, hnru, h3u, h2u, hs1u], by rw [h4l, hnrl, h3l, h2l, hs1l]⟩
          · rw [hp] at hp2; simp at hp2
        · intro _
          refine ⟨by simp [finish_state], ?_, by simp⟩
          have hklock : (notify_add_state st4).lockKind = .real := by
            simp [notify_add_state]
            rw [h4k, hnrk, h3k, h2k, hs1k]
          have hllock : (notify_add_state st4).lockState = ⟨1⟩ := by
            simp [notify_add_state]
            rw [h4l, hnrl, h3l, h2l, hs1l]
          simp [finish_state, hklock, hllock, release_write_lock]

/-- C3: for each repository mutation operation (install, uninstall, replace)
whose overridden data stages leave the lock bookkeeping and the underway flag
alone, running `finish` produces a trace that always begins with `start`
(so `start` sets the underway flag and acquires the write lock before any
data stage runs), `finish` appears only at the very end and only after the
repository notification stage, every stage strictly between `start` and
`finish` observes `underway = true` and the write lock held, and a completed
run ends with the lock released and the flag cleared. -/
theorem c3_repo_lock_discipline
    (addData removeData finalizeData : RepoOpState → Bool × RepoOpState)
    (hA : ∀ st, lockFields (addData st).2 = lockFields st)
    (hR : ∀ st, lockFields (removeData st).2 = lockFields st)
    (hF : ∀ st, lockFields (finalizeData st).2 = lockFields st)
    (st0 : RepoOpState) (hk : st0.lockKind = .real) (hw : st0.lockState = ⟨0⟩) :
    (∃ ok acc, install_run addData finalizeData st0 = some (ok, acc) ∧
      (acc.tr.map Prod.fst = ["start", "add_data"] ∨
       acc.tr.map Prod.fst = ["start", "add_data", "finalize_data"] ∨
       acc.tr.map Prod.fst =
         ["start", "add_data", "finalize_data", "_notify_repo_add", "finish"]) ∧
      (∀ p ∈ acc.tr, p.1 ≠ "start" → p.1 ≠ "finish" →
        p.2.underway = true ∧ p.2.lockState = ⟨1⟩) ∧
      (ok = true →
        acc.st.underway = false ∧ acc.st.lockState = ⟨0⟩ ∧
        acc.tr.map Prod.fst =
          ["start", "add_data", "finalize_data", "_notify_repo_add", "finish"])) ∧
    (∃ ok acc, uninstall_run removeData finalizeData st0 = some (ok, acc) ∧
      (acc.tr.map Prod.fst = ["start", "remove_data"] ∨
       acc.tr.map Prod.fst = ["start", "remove_data", "finalize_data"] ∨
       acc.tr.map Prod.fst =
         ["start", "remove_data", "finalize_data", "_notify_repo_remove", "finish"]) ∧
      (∀ p ∈ acc.tr, p.1 ≠ "start" → p.1 ≠ "finish" →
        p.2.underway = true ∧ p.2.lockState = ⟨1⟩) ∧
      (ok = true →
        acc.st.underway = false ∧ acc.st.lockState = ⟨0⟩ ∧
        acc.tr.map Prod.fst =
          ["start", "remove_data", "finalize_data", "_notify_repo_remove", "finish"])) ∧
    (∃ ok acc, replace_run addData removeData finalizeData st0 = some (ok, acc) ∧
      (acc.tr.map Prod.fst = ["start", "add_data"] ∨
       acc.tr.map Prod.fst = ["start", "add_data", "remove_data"] ∨
       acc.tr.map Prod.fst =
         ["start", "add_data", "remove_data", "_notify_repo_remove", "finalize_data"] ∨
       acc.tr.map Prod.fst =
         ["start", "add_data", "remove_data", "_notify_repo_remove", "finalize_data",
          "_notify_repo_add", "finish"]) ∧
      (∀ p ∈ acc.tr, p.1 ≠ "start" → p.1 ≠ "finish" →
        p.2.underway = true ∧ p.2.lockState = ⟨1⟩) ∧
      (ok = true →
        acc.st.underway = false ∧ acc.st.lockState = ⟨0⟩ ∧
        acc.tr.map Prod.fst =
          ["start", "add_data", "remove_data", "_notify_repo_remove", "finalize_data",
           "_notify_repo_add", "finish"])) :=
  ⟨install_run_lock_discipline addData finalizeData hA hF st0 hk hw,
   uninstall_run_lock_discipline removeData finalizeData hR hF st0 hk hw,
   replace_run_lock_discipline addData removeData finalizeData hA hR hF st0 hk hw⟩

/-- A trivial concrete data-stage body: succeed without touching the state. -/
def idStage (st : RepoOpState) : Bool × RepoOpState := (true, st)

/-- A concrete fresh operation state over a real repository lock. -/
def sampleRepoSt0 : RepoOpState :=
  ⟨.real, ⟨0⟩, false, .raw 1, .raw 2, [], []⟩

/-- Witness for C3 at a concrete input: the install conjunct instantiated
with trivially lock-preserving data stages. -/
theorem c3_repo_lock_discipline_witness :
    ∃ ok acc, install_run idStage idStage sampleRepoSt0 = some (ok, acc) ∧
      (acc.tr.map Prod.fst = ["start", "add_data"] ∨
       acc.tr.map Prod.fst = ["start", "add_data", "finalize_data"] ∨
       acc.tr.map Prod.fst =
         ["start", "add_data", "finalize_data", "_notify_repo_add", "finish"]) ∧
      (∀ p ∈ acc.tr, p.1 ≠ "start" → p.1 ≠ "finish" →
        p.2.underway = true ∧ p.2.lockState = ⟨1⟩) ∧
      (ok = true →
        acc.st.underway = false ∧ acc.st.lockState = ⟨0⟩ ∧
        acc.tr.map Prod.fst =
          ["start", "add_data", "finalize_data", "_notify_repo_add", "finish"]) :=
  (c3_repo_lock_discipline idStage idStage idStage
    (fun _ => rfl) (fun _ => rfl) (fun _ => rfl) sampleRepoSt0 rfl rfl).1

theorem pkg_mutated_ne (p : Pkg) : ∀ c : Nat, Pkg.mutated p c ≠ p := by
  induction p with
  | raw i => intro c h; exact Pkg.noConfusion h
  | mutated q d ihq =>
    intro c h
    injection h with h1 h2
    exact ihq d h1

/-- C5: when the `finalize_data` stage substitutes a mutated package through
`_update_pkg_contents`, the `_notify_repo_add` stage passes the substituted
`MutatedPkg` object to `notify_add_package`, which differs from the package
originally supplied at construction. -/
theorem c5_notify_receives_mutated_pkg
    (addData : RepoOpState → Bool × RepoOpState) (c : Nat)
    (hA1 : ∀ st, (addData st).1 = true)
    (hA2 : ∀ st, (addData st).2.newPkg = st.newPkg)
    (hA3 : ∀ st, (addData st).2.notifiedAdds = st.notifiedAdds) (st0 : RepoOpState) :
    ∃ acc, install_run addData (fun st => (true, _update_pkg_contents st c)) st0 =
        some (true, acc) ∧
      acc.st.notifiedAdds = st0.notifiedAdds ++ [Pkg.mutated st0.newPkg c] ∧
      Pkg.mutated st0.newPkg c ≠ st0.newPkg := by
  rcases hadd : addData (start_state st0) with ⟨ra, st2⟩
  have hra := hA1 (start_state st0)
  rw [hadd] at hra
  simp at hra
  subst hra
  have hnp := hA2 (start_state st0)
  rw [hadd] at hnp
  have hna := hA3 (start_state st0)
  rw [hadd] at hna
  have hnp2 : st2.newPkg = st0.newPkg := by
    rw [hnp]; simp [start_state]
  have hna2 : st2.notifiedAdds = st0.notifiedAdds := by
    rw [hna]; simp [start_state]
  refine ⟨⟨finish_state (notify_add_state (_update_pkg_contents st2 c)),
    ["finish", "_notify_repo_add", "finalize_data", "add_data", "start"],
    [("start", st0), ("add_data", start_state st0), ("finalize_data", st2),
     ("_notify_repo_add", _update_pkg_contents st2 c),
     ("finish", notify_add_state (_update_pkg_contents st2 c))]⟩, ?_, ?_,
    pkg_mutated_ne st0.newPkg c⟩
  · simp [install_run, runStage, runPreAux, install_stage_depends, install_impl,
      start_impl, notify_repo_add_impl, finish_impl, hadd]
  · simp [finish_state, notify_add_state, _update_pkg_contents, hnp2, hna2]

/-- Witness for C5 at a concrete input. -/
theorem c5_notify_receives_mutated_pkg_witness :
    ∃ acc, install_run idStage (fun st => (true, _update_pkg_contents st 7)) sampleRepoSt0 =
        some (true, acc) ∧
      acc.st.notifiedAdds = sampleRepoSt0.notifiedAdds ++ [Pkg.mutated sampleRepoSt0.newPkg 7] ∧
      Pkg.mutated sampleRepoSt0.newPkg 7 ≠ sampleRepoSt0.newPkg :=
  c5_notify_receives_mutated_pkg idStage 7
    (fun _ => rfl) (fun _ => rfl) (fun _ => rfl) sampleRepoSt0

/-- A repository exposing no `lock` attribute at all. -/
def noLockRepo : PyRepo := ⟨.absent, false, none⟩

/-- A repository whose `lock` attribute is `None`. -/
def noneLockRepo : PyRepo := ⟨.pynone, false, none⟩

/-- Counterexample to C7 as stated: over a repository that exposes no lock
attribute, construction does not succeed — `base.__init__` re-raises the
`AttributeError` from `getattr(repo, "lock")`. -/
theorem c7_counterexample_no_lock_attribute :
    repo_base_init noLockRepo = .error (.attributeError "lock") := rfl

/-- C7 (amended): over a repository whose `lock` attribute is `None`,
construction succeeds with the no-op `fake_lock` standing in, and the fake
lock's write acquisition and release leave the lock state untouched. -/
theorem c7_amended_fake_lock (repo : PyRepo) (h : repo.lockAttr = .pynone) :
    repo_base_init repo = .ok ⟨false, .fake⟩ ∧
    (∀ s, acquire_write_lock .fake s = s) ∧
    (∀ s, release_write_lock .fake s = s) := by
  refine ⟨?_, fun s => rfl, fun s => rfl⟩
  simp [repo_base_init, h]

/-- Witness for the amended C7 at a concrete repository. -/
theorem c7_amended_fake_lock_witness :
    repo_base_init noneLockRepo = .ok ⟨false, .fake⟩ ∧
    (∀ s, acquire_write_lock .fake s = s) ∧
    (∀ s, release_write_lock .fake s = s) :=
  c7_amended_fake_lock noneLockRepo rfl

/- ----------------------------------------------------------------- -/
/- repo.py: the operations registry                                   -/
/- ----------------------------------------------------------------- -/

/-- Python `p.startswith(s)` over the string's character list (so that it
computes by `decide`). -/
def pyStartsWith (p s : String) : Bool := p.data.isPrefixOf s.data

/-- Python `s[n:]` over the string's character list. -/
def pyDrop (n : Nat) (s : String) : String := String.mk (s.data.drop n)

/-- The attributes `dir` exposes on class `operations` of
`pkgcore/operations/repo.py`: its declared methods, including the
`_cmd_check_support_install`/`uninstall`/`replace` attributes bound by the
class-body loop.  Double-underscore builtins are omitted; none of them
starts with `_cmd_` or is queried by the embedded code. -/
def operations_class_attrs : List String :=
  ["_collect_operations", "_default_observer", "_disabled_if_frozen",
   "_enable_operation", "_filter_disabled_commands", "_get_syncer",
   "supports",
   "_cmd_check_support_install", "_cmd_check_support_replace",
   "_cmd_check_support_sync", "_cmd_check_support_uninstall",
   "_cmd_enabled_configure", "_cmd_enabled_install", "_cmd_enabled_replace",
   "_cmd_enabled_sync", "_cmd_enabled_uninstall",
   "_cmd_sync"]

/-- Embeds `operations._collect_operations`: the names `x[len("_cmd_"):]`
of the class attributes starting with `_cmd_` but not with `_cmd_enabled_`
nor `_cmd_check_support_`. -/
def _collect_operations (attrs : List String) : List String :=
  (attrs.filter (fun x => pyStartsWith "_cmd_" x &&
      !(pyStartsWith "_cmd_enabled_" x) &&
      !(pyStartsWith "_cmd_check_support_" x))).map (fun x => pyDrop 5 x)

/-- The value of the support predicate `_cmd_check_support_<cmd>` on a
repository: install, uninstall and replace are bound to
`_disabled_if_frozen` (`not self.repo.frozen`); sync requires a non-`None`
`_syncer` whose syncer is not disabled.  Only consulted for commands whose
predicate attribute exists. -/
def check_support_eval (repo : PyRepo) (cmd : String) : Bool :=
  if cmd = "install" ∨ cmd = "uninstall" ∨ cmd = "replace" then !repo.frozen
  else if cmd = "sync" then
    match repo.syncerAttr with
    | none => false
    | some s => !s.disabled
  else true

/-- Embeds `operations._filter_disabled_commands`: drop every command whose
support predicate exists and evaluates to false. -/
def _filter_disabled_commands (repo : PyRepo) (seq : List String) : List String :=
  seq.filter (fun command =>
    if ("_cmd_check_support_" ++ command) ∈ operations_class_attrs then
      check_support_eval repo command
    else true)

/-- A constructed operations registry: the repository (stored under the
instance attribute `repo`) and the frozen enabled command set. -/
structure OpsRegistry where
  repo : PyRepo
  enabled_ops : List String
deriving DecidableEq, Repr

/-- Embeds `operations.__init__`: collect the candidate commands, drop those
whose support predicate rejects them, add the enable overrides, remove the
disable overrides, then bind each enabled command's wrapper onto the
instance — `getattr(self, '_cmd_enabled_%s' % op)` raises `AttributeError`
when no such wrapper attribute exists. -/
def operations_init (repository : PyRepo)
    (disable_overrides enable_overrides : List String) : Except PyErr OpsRegistry :=
  let collected := _filter_disabled_commands repository
    (_collect_operations operations_class_attrs)
  let withEnable := collected ++ enable_overrides.filter
    (fun c => !(collected.contains c))
  let enabled := withEnable.filter (fun c => !(disable_overrides.contains c))
  if enabled.all (fun op => decide (("_cmd_enabled_" ++ op) ∈ operations_class_attrs)) then
    .ok ⟨repository, enabled⟩
  else .error (.attributeError "_cmd_enabled_")

/-- The attributes present on a constructed registry instance: the class
attributes, the instance attributes `repo` and `_enabled_ops` set by
`__init__`, and one attribute per enabled command bound by
`_enable_operation`. -/
def instance_attrs (r : OpsRegistry) : List String :=
  operations_class_attrs ++ ["repo", "_enabled_ops"] ++ r.enabled_ops

/-- The value `operations.supports` returns: a set of command names or a
boolean answer. -/
inductive SupportsResult where
  | ops (s : List String)
  | answer (b : Bool)
deriving DecidableEq, Repr

/-- Embeds `operations.supports(operation_name=None, raw=False)`: with a
falsy name (None or the empty string), return the enabled set, or every
structurally-defined command when `raw`; with a name, `raw` tests
`hasattr(self, '_cmd_enabled_%s' % name)` and non-`raw` tests
`hasattr(self, name)`. -/
def supports (r : OpsRegistry) (operation_name : Option String) (raw : Bool) :
    SupportsResult :=
  match operation_name with
  | none =>
    if !raw then .ops r.enabled_ops
    else .ops (_collect_operations operations_class_attrs)
  | some n =>
    if n = "" then
      (if !raw then .ops r.enabled_ops
       else .ops (_collect_operations operations_class_attrs))
    else if raw then .answer ((instance_attrs r).contains ("_cmd_enabled_" ++ n))
    else .answer ((instance_attrs r).contains n)

/-- Embeds `operations._cmd_enabled_configure(self, pkg, observer=None)`,
whose body is `self._cmd_configure(self.repository, pkg, ...)`: Python
resolves `self._cmd_configure`, then the argument `self.repository`, and
only then invokes the handler; an absent attribute raises `AttributeError`
at its lookup.  On success the result names the handler reached and the
package passed. -/
def _cmd_enabled_configure (attrs : List String) (pkg : Nat) :
    Except PyErr (String × Nat) :=
  if !(attrs.contains "_cmd_configure") then .error (.attributeError "_cmd_configure")
  else if !(attrs.contains "repository") then .error (.attributeError "repository")
  else .ok ("_cmd_configure", pkg)

/-- C4: over a frozen repository with empty override sets, `install`,
`uninstall` and `replace` are absent from the enabled command set; and any
command that has an enabled wrapper but whose support predicate rejects it
is still placed in the enabled set when passed as an enable override. -/
theorem c4_frozen_registry (repo : PyRepo) (hfrozen : repo.frozen = true) :
    (∃ r, operations_init repo [] [] = .ok r ∧
      "install" ∉ r.enabled_ops ∧ "uninstall" ∉ r.enabled_ops ∧
      "replace" ∉ r.enabled_ops) ∧
    (∀ c : String, ("_cmd_check_support_" ++ c) ∈ operations_class_attrs →
      check_support_eval repo c = false →
      ("_cmd_enabled_" ++ c) ∈ operations_class_attrs →
      ∃ r, operations_init repo [] [c] = .ok r ∧ c ∈ r.enabled_ops) := by
  have hcol : _collect_operations operations_class_attrs = ["sync"] := by decide
  have hatt : ("_cmd_check_support_" ++ "sync") ∈ operations_class_attrs := by decide
  cases hsync : check_support_eval repo "sync" with
  | false =>
    have hL : _filter_disabled_commands repo (_collect_operations operations_class_attrs)
        = [] := by
      rw [hcol]
      simp [_filter_disabled_commands, hsync]
      decide
    constructor
    · refine ⟨⟨repo, []⟩, ?_, by simp, by simp, by simp⟩
      simp [operations_init, hL]
    · intro c hc hrej hen
      refine ⟨⟨repo, [c]⟩, ?_, by simp⟩
      simp [operations_init, hL, decide_eq_true hen]
  | true =>
    have hL : _filter_disabled_commands repo (_collect_operations operations_class_attrs)
        = ["sync"] := by
      rw [hcol]
      simp [_filter_disabled_commands, hsync, hatt]
    constructor
    · refine ⟨⟨repo, ["sync"]⟩, ?_, by simp, by simp, by simp⟩
      simp [operations_init, hL]
      decide
    · intro c hc hrej hen
      by_cases hcs : c = "sync"
      · subst hcs
        refine ⟨⟨repo, ["sync"]⟩, ?_, by simp⟩
        simp [operations_init, hL]
        decide
      · refine ⟨⟨repo, ["sync", c]⟩, ?_, by simp⟩
        simp [operations_init, hL, decide_eq_true hen, hcs]
        decide

/-- A frozen repository without a syncer. -/
def frozenRepo : PyRepo := ⟨.pynone, true, none⟩

/-- Witness for C4 at a concrete frozen repository: install is absent from
the enabled set, and enable-overriding the support-rejected `install` places
it in the enabled set. -/
theorem c4_frozen_registry_witness :
    (∃ r, operations_init frozenRepo [] [] = .ok r ∧
      "install" ∉ r.enabled_ops ∧ "uninstall" ∉ r.enabled_ops ∧
      "replace" ∉ r.enabled_ops) ∧
    (∃ r, operations_init frozenRepo [] ["install"] = .ok r ∧
      "install" ∈ r.enabled_ops) := by
  have h := c4_frozen_registry frozenRepo rfl
  exact ⟨h.1, h.2 "install" (by decide) (by decide) (by decide)⟩

/-- An unfrozen repository without a syncer, whose lock is `None`. -/
def sampleOpsRepo : PyRepo := ⟨.pynone, false, none⟩

/-- The registry built over `sampleOpsRepo` (no command survives support
filtering: sync has no syncer, and install/uninstall/replace have no raw
`_cmd_` handler on this class). -/
def sampleRegistry : OpsRegistry := ⟨sampleOpsRepo, []⟩

/-- Counterexample to C6 as stated: on a concretely constructed registry,
`supports("install", raw=True)` answers true although `"install"` is not a
member of the set `supports(None, raw=True)` returns; and
`supports("repo", raw=False)` answers true although `"repo"` is not in the
enabled set `supports(None, raw=False)` returns. -/
theorem c6_counterexample_supports_mismatch :
    operations_init sampleOpsRepo [] [] = .ok sampleRegistry ∧
    supports sampleRegistry (some "install") true = .answer true ∧
    supports sampleRegistry none true = .ops ["sync"] ∧
    "install" ∉ (["sync"] : List String) ∧
    supports sampleRegistry (some "repo") false = .answer true ∧
    supports sampleRegistry none false = .ops [] ∧
    "repo" ∉ ([] : List String) := by
  refine ⟨by rfl, by decide, by decide, by decide, by decide, by decide, by decide⟩

/-- C6 (amended): with a name, `supports(n, raw=True)` reports whether the
registry defines the enabled-wrapper attribute `_cmd_enabled_n` — not
membership in the raw set `supports(None, raw=True)` — and
`supports(n, raw=False)` reports whether `n` is any attribute of the
registry instance, which is implied by, but not equivalent to, membership
in the enabled set. -/
theorem c6_supports_amended (repository : PyRepo)
    (dis en : List String) (r : OpsRegistry)
    (h : operations_init repository dis en = .ok r) (n : String) (hn : n ≠ "") :
    supports r (some n) true =
      .answer ((instance_attrs r).contains ("_cmd_enabled_" ++ n)) ∧
    supports r (some n) false = .answer ((instance_attrs r).contains n) ∧
    (n ∈ r.enabled_ops → supports r (some n) false = .answer true) := by
  refine ⟨by simp [supports, hn], by simp [supports, hn], ?_⟩
  intro hmem
  simp [supports, hn, instance_attrs]
  exact Or.inr (Or.inr (Or.inr hmem))

/-- An unfrozen repository with an enabled syncer. -/
def syncedRepo : PyRepo := ⟨.pynone, false, some ⟨false⟩⟩

/-- The registry built over `syncedRepo`: only `sync` is enabled. -/
def syncedRegistry : OpsRegistry := ⟨syncedRepo, ["sync"]⟩

/-- Witness for the amended C6 at a concrete registry and name. -/
theorem c6_supports_amended_witness :
    supports syncedRegistry (some "sync") true =
      .answer ((instance_attrs syncedRegistry).contains ("_cmd_enabled_" ++ "sync")) ∧
    supports syncedRegistry (some "sync") false =
      .answer ((instance_attrs syncedRegistry).contains "sync") ∧
    ("sync" ∈ syncedRegistry.enabled_ops →
      supports syncedRegistry (some "sync") false = .answer true) :=
  c6_supports_amended syncedRepo [] [] syncedRegistry rfl "sync" (by decide)

/-- C10: on a registry whose construction succeeded and where `configure` is
enabled, invoking the enabled configure wrapper (over attributes extended
with a concrete `_cmd_configure` handler) raises `AttributeError` on the
`repository` attribute before the handler runs: `__init__` stores the
repository under `repo`, and no enabled command can ever bind an attribute
named `repository`. -/
theorem c10_configure_wrapper_attribute_error (repository : PyRepo)
    (dis en : List String) (r : OpsRegistry)
    (h : operations_init repository dis en = .ok r)
    (hconf : "configure" ∈ r.enabled_ops) (pkg : Nat) :
    _cmd_enabled_configure (instance_attrs r ++ ["_cmd_configure"]) pkg =
      .error (.attributeError "repository") := by
  have hno : "repository" ∉ r.enabled_ops := by
    intro hmem
    rw [operations_init] at h
    split at h
    case isTrue hall =>
      cases h
      have hbad := List.all_eq_true.mp hall "repository" hmem
      simp at hbad
      exact absurd hbad (by decide)
    case isFalse => cases h
  have hrep : "repository" ∉ instance_attrs r := by
    simp [instance_attrs]
    exact ⟨by decide, hno⟩
  simp [_cmd_enabled_configure, instance_attrs] at hrep ⊢
  exact hrep

/-- A registry over `sampleOpsRepo` with `configure` enable-overridden. -/
def configRegistry : OpsRegistry := ⟨sampleOpsRepo, ["configure"]⟩

/-- Witness for C10 at a concrete registry with `configure` enabled. -/
theorem c10_configure_wrapper_attribute_error_witness :
    _cmd_enabled_configure (instance_attrs configRegistry ++ ["_cmd_configure"]) 5 =
      .error (.attributeError "repository") :=
  c10_configure_wrapper_attribute_error sampleOpsRepo [] ["configure"] configRegistry
    rfl (by decide) 5
